import Mathlib

/-!
Verification of the terminal-command execution and safety-gating service
(`TerminalService` in `scripts/modules/terminal-service.js` and
`ClaudeCodeAIProvider` in `src/ai-providers/claude-code.js`).

The JavaScript code is shallowly embedded: strings are Lean `String`s,
JavaScript regular-expression tests are run by a small bounded token
matcher (`rmatch`/`reTest`), the external subprocess (`execAsync`) is an
oracle `String → ExecOutcome` mapping a command to the behaviour the
shell would exhibit for it, and JavaScript truthiness of `x || y` on
strings and numbers is made explicit (`jsOrStr`, `jsOrInt`).  Wall-clock
durations (`Date.now()` arithmetic) are not modelled; the `duration`
field is carried in the result record but computed as `0` by the
embedded executor.
-/

/-! ## JavaScript string primitives -/

/-- The whitespace class used by JavaScript `\s`, `String.prototype.trim`
(restricted to the code points that can realistically appear in a command
line): space, tab, LF, CR, VT, FF, NBSP, BOM. -/
def isSpaceJS (c : Char) : Bool :=
  c == ' ' || c == '\t' || c == '\n' || c == '\r' ||
  c == Char.ofNat 0x0b || c == Char.ofNat 0x0c ||
  c == Char.ofNat 0xa0 || c == Char.ofNat 0xfeff

/-- JavaScript `s.trim()`. -/
def jsTrim (s : String) : String :=
  ⟨((s.data.dropWhile isSpaceJS).reverse.dropWhile isSpaceJS).reverse⟩

/-- JavaScript `command.trim().split(' ')[0]`: the text of the trimmed
command up to the first space character. -/
def baseCommand (command : String) : String :=
  ⟨(jsTrim command).data.takeWhile (fun c => c != ' ')⟩

/-- JavaScript `s.startsWith(pre)`. -/
def jsStartsWith (s pre : String) : Bool :=
  pre.data.isPrefixOf s.data

/-- JavaScript `v || dflt` where `v` is a possibly-undefined string
(`none` = `undefined`); the empty string is falsy. -/
def jsOrStr (v : Option String) (dflt : String) : String :=
  match v with
  | some s => if s = "" then dflt else s
  | none => dflt

/-- JavaScript `v || dflt` where `v` is a possibly-undefined number;
`0` is falsy. -/
def jsOrInt (v : Option Int) (dflt : Int) : Int :=
  match v with
  | some n => if n = 0 then dflt else n
  | none => dflt

/-- JavaScript `parts.join("\n")`. -/
def joinNl : List String → String
  | [] => ""
  | [s] => s
  | s :: rest => s ++ "\n" ++ joinNl rest

/-- JavaScript `s.split('\n')` on the character list of `s`: always
returns at least one (possibly empty) piece. -/
def splitNl : List Char → List (List Char)
  | [] => [[]]
  | c :: cs =>
    if c = '\n' then [] :: splitNl cs
    else
      match splitNl cs with
      | [] => [[c]]
      | l :: ls => (c :: l) :: ls

/-- The lines of a string, as JavaScript `s.split('\n')` produces them. -/
def linesOf (s : String) : List String :=
  (splitNl s.data).map (fun l => ⟨l⟩)

/-- JavaScript `list.map((x, index) => f(index, x))` starting at index
`n`. -/
def mapIdxFrom (f : Nat → α → β) : Nat → List α → List β
  | _, [] => []
  | n, a :: as_ => f n a :: mapIdxFrom f (n + 1) as_

/-- Boolean substring test on character lists (used only to state
concrete facts about rendered strings). -/
def substrB (needle : List Char) : List Char → Bool
  | [] => needle.isPrefixOf []
  | c :: cs => needle.isPrefixOf (c :: cs) || substrB needle cs

/-! ## A bounded matcher for the six deny regular expressions

Each dangerous pattern in `isCommandSafe` is a sequence of literal
characters, single-character classes (`\s`, `.`) and starred classes
(`\s*`, `.*`, with `\s+` as class-then-star).  A pattern is a list of
such tokens; `rmatch` decides whether a token list matches a prefix of a
character list (with backtracking for stars), and `reTest` — the
embedding of JavaScript `regex.test(s)` — tries every start position.
The matcher is fuel-bounded for structural recursion; every recursive
call shrinks `tokens.length + input.length`, so the initial fuel
`tokens.length + input.length + 1` is never exhausted. -/

inductive RTok
  | one (p : Char → Bool)
  | star (p : Char → Bool)

/-- Fuelled matching of a token list against a prefix of the input. -/
def rmatchF : Nat → List RTok → List Char → Bool
  | 0, _, _ => false
  | _ + 1, [], _ => true
  | f + 1, RTok.one p :: ts, cs =>
    match cs with
    | [] => false
    | c :: cs' => p c && rmatchF f ts cs'
  | f + 1, RTok.star p :: ts, cs =>
    rmatchF f ts cs ||
      (match cs with
       | [] => false
       | c :: cs' => p c && rmatchF f (RTok.star p :: ts) cs')

/-- Does the token list match a prefix of the input? -/
def rmatch (ts : List RTok) (cs : List Char) : Bool :=
  rmatchF (ts.length + cs.length + 1) ts cs

/-- Embedding of JavaScript `regex.test(s)`: unanchored search, trying
every start position. -/
def reTest (ts : List RTok) : List Char → Bool
  | [] => rmatch ts []
  | c :: cs => rmatch ts (c :: cs) || reTest ts cs

/-- Literal characters under the `i` flag: the pattern letter (written
lowercase) matches the input character lowercased. -/
def litCI (s : String) : List RTok :=
  s.data.map (fun a => RTok.one (fun c => c.toLower == a))

/-- Case-sensitive literal characters. -/
def lit (s : String) : List RTok :=
  s.data.map (fun a => RTok.one (fun c => c == a))

/-- JavaScript `.`: any character except a line terminator. -/
def dotCls (c : Char) : Bool :=
  !(c == '\n' || c == '\r' || c == Char.ofNat 0x2028 || c == Char.ofNat 0x2029)

/-- `/rm\s+-rf/i` -/
def reRmRf : List RTok :=
  litCI "rm" ++ [RTok.one isSpaceJS, RTok.star isSpaceJS] ++ litCI "-rf"

/-- `/>\s*\/dev\/null/` (no `i` flag) -/
def reDevNull : List RTok :=
  lit ">" ++ [RTok.star isSpaceJS] ++ lit "/dev/null"

/-- `/sudo/i` -/
def reSudo : List RTok := litCI "sudo"

/-- `/chmod\s+777/i` -/
def reChmod777 : List RTok :=
  litCI "chmod" ++ [RTok.one isSpaceJS, RTok.star isSpaceJS] ++ litCI "777"

/-- `/curl.*\|.*sh/i` -/
def reCurlPipeSh : List RTok :=
  litCI "curl" ++ [RTok.star dotCls] ++ lit "|" ++ [RTok.star dotCls] ++ litCI "sh"

/-- `/wget.*\|.*sh/i` -/
def reWgetPipeSh : List RTok :=
  litCI "wget" ++ [RTok.star dotCls] ++ lit "|" ++ [RTok.star dotCls] ++ litCI "sh"

/-- The `dangerousPatterns` array of `isCommandSafe`, in source order. -/
def dangerousPatterns : List (List RTok) :=
  [reRmRf, reDevNull, reSudo, reChmod777, reCurlPipeSh, reWgetPipeSh]

/-- The deny scan of `isCommandSafe`: the loop over `dangerousPatterns`
returns `false` (unsafe) as soon as one pattern tests positive. -/
def matchesDeny (command : String) : Bool :=
  dangerousPatterns.any (fun p => reTest p command.data)

/-! ## TerminalService: the safety policy -/

/-- `this.safeCommands`, as populated in the `TerminalService`
constructor. -/
def safeCommands : List String :=
  ["ls", "pwd", "echo", "cat", "grep", "find", "which",
   "npm list", "npm run", "yarn list", "yarn run",
   "git status", "git log", "git branch", "git diff", "git --version",
   "node --version", "npm --version", "yarn --version"]

/-- `TerminalService.isCommandSafe`: deny patterns first (any match
returns `false`), then the allow check — exact membership of the leading
token, or the raw command starting with any safe-command prefix. -/
def isCommandSafe (command : String) : Bool :=
  if matchesDeny command then false
  else
    safeCommands.contains (baseCommand command) ||
      safeCommands.any (fun safe => jsStartsWith command safe)

/-! ## TerminalService: the executor -/

/-- Behaviour of the external shell for one command: `execAsync` either
resolves with captured streams, or rejects with an error object carrying
possibly-undefined `stdout`, `stderr`, `code` fields and a `message`
(spawn failures, timeouts and nonzero exits all reject). -/
inductive ExecOutcome
  | ok (stdout stderr : String)
  | err (stdout stderr : Option String) (code : Option Int) (message : String)
deriving DecidableEq

/-- The result records built by `TerminalService.executeCommand`.  Fields
a given JavaScript branch leaves undefined default to `false`. -/
structure ExecutionResult where
  command : String
  stdout : String
  stderr : String
  exitCode : Int
  duration : Nat
  blocked : Bool := false
  truncated : Bool := false
  error : Bool := false
deriving DecidableEq

/-- The marker `truncateOutput` appends. -/
def truncMarker : String := "\n... (output truncated)"

/-- `TerminalService.truncateOutput`: unchanged when within the budget
(the JavaScript `!output` guard is subsumed: the empty string has length
`0 ≤ maxLen`), otherwise the first `maxLen` characters plus the marker. -/
def truncateOutput (maxLen : Nat) (output : String) : String :=
  if output.length ≤ maxLen then output
  else (⟨output.data.take maxLen⟩ : String) ++ truncMarker

/-- The fixed stderr of a policy-blocked result. -/
def blockedMessage : String := "Command blocked for safety reasons"

/-- `TerminalService.executeCommand`, instrumented: the second component
records whether the `execAsync` call was reached (`false` exactly when
the safety check blocked the command before any subprocess work).
`duration` is wall-clock in the source and is modelled as `0`. -/
def executeCommandInstr (maxLen : Nat) (oracle : String → ExecOutcome)
    (skipSafetyCheck : Bool) (command : String) : ExecutionResult × Bool :=
  if !skipSafetyCheck && !isCommandSafe command then
    ({ command := command, stdout := "", stderr := blockedMessage,
       exitCode := 1, duration := 0, blocked := true }, false)
  else
    match oracle command with
    | ExecOutcome.ok out err =>
      ({ command := command,
         stdout := truncateOutput maxLen out,
         stderr := truncateOutput maxLen err,
         exitCode := 0, duration := 0,
         truncated := decide (maxLen < out.length) || decide (maxLen < err.length) }, true)
    | ExecOutcome.err eout eerr code msg =>
      ({ command := command,
         stdout := truncateOutput maxLen (jsOrStr eout ""),
         stderr := truncateOutput maxLen (jsOrStr eerr msg),
         exitCode := jsOrInt code 1, duration := 0, error := true }, true)

/-- `TerminalService.executeCommand` (result only). -/
def executeCommand (maxLen : Nat) (oracle : String → ExecOutcome)
    (skipSafetyCheck : Bool) (command : String) : ExecutionResult :=
  (executeCommandInstr maxLen oracle skipSafetyCheck command).1

/-- `TerminalService.executeCommands`, instrumented: the loop collects
one result per command and breaks after a nonzero-exit result unless
`continueOnError`; the second component records the commands on which
`executeCommand` was actually invoked. -/
def executeCommandsInstr (maxLen : Nat) (oracle : String → ExecOutcome)
    (continueOnError skipSafetyCheck : Bool) :
    List String → List ExecutionResult × List String
  | [] => ([], [])
  | c :: rest =>
    let r := executeCommand maxLen oracle skipSafetyCheck c
    if r.exitCode != 0 && !continueOnError then ([r], [c])
    else
      let tail := executeCommandsInstr maxLen oracle continueOnError skipSafetyCheck rest
      (r :: tail.1, c :: tail.2)

/-- `TerminalService.executeCommands` (results only). -/
def executeCommands (maxLen : Nat) (oracle : String → ExecOutcome)
    (continueOnError skipSafetyCheck : Bool) (commands : List String) :
    List ExecutionResult :=
  (executeCommandsInstr maxLen oracle continueOnError skipSafetyCheck commands).1

/-! ## Meta-commands (claude-search, claude-explain) -/

/-- The context object passed to the claude meta-commands; `none` models
an undefined field. -/
structure SearchContext where
  searchPath : Option String := none
  projectRoot : Option String := none
deriving DecidableEq

/-- The `searchCommands` array of `claudeSearch`
(`context.searchPath || '.'` supplies the path). -/
def searchCommands (query : String) (ctx : SearchContext) : List String :=
  let path := jsOrStr ctx.searchPath "."
  ["grep -r \"" ++ query ++ "\" " ++ path,
   "find " ++ path ++ " -name \"*" ++ query ++ "*\"",
   "git log --grep=\"" ++ query ++ "\" --oneline -10"]

/-- One entry of the `results` array `claudeSearch` synthesizes (the
source field name `matches` is a Lean keyword, hence the guillemets). -/
structure SearchSubResult where
  command : String
  «matches» : Nat
  preview : String
deriving DecidableEq

/-- The object `claudeSearch` returns. -/
structure ClaudeSearchResult where
  command : String
  results : List SearchSubResult
deriving DecidableEq

/-- `r.stdout.split('\n').filter(line => line.trim()).length`: the number
of lines that are non-blank after trimming. -/
def countMatches (s : String) : Nat :=
  ((linesOf s).filter (fun line => jsTrim line != "")).length

/-- `r.stdout.split('\n').slice(0, 5).join('\n')`. -/
def previewOf (s : String) : String :=
  joinNl ((linesOf s).take 5)

/-- `claudeSearch` (identical in `ClaudeCodeAIProvider` and
`TerminalService` up to the working directory, which the embedding does
not model): run the three probes with `continueOnError: true` and
synthesize a match count and preview per probe. -/
def claudeSearch (maxLen : Nat) (oracle : String → ExecOutcome)
    (query : String) (ctx : SearchContext) : ClaudeSearchResult :=
  let results := executeCommands maxLen oracle true false (searchCommands query ctx)
  { command := "claude-search " ++ query,
    results := results.map (fun r =>
      { command := r.command,
        «matches» := countMatches r.stdout,
        preview := previewOf r.stdout }) }

/-- The two shapes `ClaudeCodeAIProvider.claudeExplain` returns: the
explanation object, or the failure object `{command, error, stderr}`. -/
inductive ExplainResult
  | explanation (command text : String)
  | failure (command error stderr : String)
deriving DecidableEq

/-- The prompt `claudeExplain` builds around the file content. -/
def explainPrompt (content : String) : String :=
  "Explain this code:\n\n```\n" ++ content ++ "\n```"

/-- `ClaudeCodeAIProvider.claudeExplain`: read the target with
`cat <target>` through `executeCommand` (no safety bypass); on exit code
0 forward the prompt to the text-generation capability `gen` (an external
collaborator, modelled as a function on the prompt), otherwise return the
failure object carrying the read's stderr. -/
def claudeExplain (maxLen : Nat) (oracle : String → ExecOutcome)
    (gen : String → String) (target : String) : ExplainResult :=
  let fileContent := executeCommand maxLen oracle false ("cat " ++ target)
  if fileContent.exitCode = 0 then
    ExplainResult.explanation ("claude-explain " ++ target)
      (gen (explainPrompt fileContent.stdout))
  else
    ExplainResult.failure ("claude-explain " ++ target)
      "Could not read file" fileContent.stderr

/-! ## Result formatters -/

/-- One entry of `ClaudeCodeAIProvider.formatTerminalResults`, written as
the source accumulates it: a numbered header, then either the blocked
notice with the reason or the exit code with conditional output/error
blocks, then the truncation note. -/
def fmtEntry (index : Nat) (result : ExecutionResult) : String :=
  let formatted := "### Command " ++ toString (index + 1) ++ ": `" ++ result.command ++ "`\n"
  let formatted :=
    if result.blocked then
      formatted ++ "**Status:** Blocked for safety\n" ++ "**Reason:** " ++ result.stderr ++ "\n"
    else
      let formatted := formatted ++ "**Exit Code:** " ++ toString result.exitCode ++ "\n"
      let formatted :=
        if result.stdout != "" then
          formatted ++ "**Output:**\n```\n" ++ result.stdout ++ "\n```\n"
        else formatted
      if result.stderr != "" && result.exitCode != 0 then
        formatted ++ "**Error:**\n```\n" ++ result.stderr ++ "\n```\n"
      else formatted
  if result.truncated then formatted ++ "*Note: Output was truncated*\n" else formatted

/-- `ClaudeCodeAIProvider.formatTerminalResults`:
`results.map((result, index) => ...).join('\n')`. -/
def formatTerminalResults (results : List ExecutionResult) : String :=
  joinNl (mapIdxFrom fmtEntry 0 results)

/-- `TerminalService.formatResult` (single-result display variant); the
chalk color wrappers are modelled as the identity on their text. -/
def formatResult (result : ExecutionResult) : String :=
  let status := if result.exitCode = 0 then "✓" else "✗"
  let durationTxt := "(" ++ toString result.duration ++ "ms)"
  let output := status ++ " " ++ result.command ++ " " ++ durationTxt ++ "\n"
  let output :=
    if result.stdout != "" then output ++ "Output:\n" ++ result.stdout ++ "\n" else output
  let output :=
    if result.stderr != "" then output ++ "Error:\n" ++ result.stderr ++ "\n" else output
  if result.truncated then output ++ "(Output was truncated)\n" else output

/-- Rendering of one result as the specification describes it
(written from the spec's words, for comparison with `fmtEntry`): a
header with the command text, then — blocked → the blocked-for-safety
notice plus the reason instead of exit code and output; otherwise the
exit code, an output block exactly when stdout is non-empty, an error
block exactly when stderr is non-empty and the exit code is nonzero —
then a truncation notice exactly when the flag is set. -/
def renderEntrySpec (index : Nat) (result : ExecutionResult) : String :=
  ("### Command " ++ toString (index + 1) ++ ": `" ++ result.command ++ "`\n") ++
  (if result.blocked then
     "**Status:** Blocked for safety\n" ++ "**Reason:** " ++ result.stderr ++ "\n"
   else
     ("**Exit Code:** " ++ toString result.exitCode ++ "\n") ++
     (if result.stdout = "" then ""
      else "**Output:**\n```\n" ++ result.stdout ++ "\n```\n") ++
     (if result.stderr ≠ "" ∧ result.exitCode ≠ 0 then
        "**Error:**\n```\n" ++ result.stderr ++ "\n```\n"
      else "")) ++
  (if result.truncated then "*Note: Output was truncated*\n" else "")

/-! ## Helper lemmas -/

lemma truncateOutput_length_le (m : Nat) (s : String) :
    (truncateOutput m s).length ≤ m + truncMarker.length := by
  unfold truncateOutput
  split
  · exact le_trans (by assumption) (Nat.le_add_right m _)
  · rw [String.length_append]
    have hmk : ((⟨s.data.take m⟩ : String)).length = (s.data.take m).length := rfl
    rw [hmk, List.length_take]
    exact Nat.add_le_add_right (min_le_left m s.data.length) _

lemma executeCommandsInstr_continue_eq (m : Nat) (o : String → ExecOutcome)
    (sk : Bool) (cmds : List String) :
    executeCommandsInstr m o true sk cmds = (cmds.map (executeCommand m o sk), cmds) := by
  induction cmds with
  | nil => rfl
  | cons c rest ih => simp [executeCommandsInstr, ih]

lemma executeCommandsInstr_stop_eq (m : Nat) (o : String → ExecOutcome)
    (sk : Bool) (cmds : List String) :
    executeCommandsInstr m o false sk cmds =
      ((cmds.take (cmds.findIdx (fun c => (executeCommand m o sk c).exitCode != 0) + 1)).map
         (executeCommand m o sk),
       cmds.take (cmds.findIdx (fun c => (executeCommand m o sk c).exitCode != 0) + 1)) := by
  induction cmds with
  | nil => rfl
  | cons c rest ih =>
    cases h : (executeCommand m o sk c).exitCode != 0 with
    | true => simp [executeCommandsInstr, h, List.findIdx_cons]
    | false => simp [executeCommandsInstr, h, List.findIdx_cons, ih]

/-! ## Claims -/

/-- C1: every command matching at least one configured deny pattern is
classified unsafe by `isCommandSafe` and blocked by `executeCommand`,
whatever its allow-prefix status: the deny scan runs first and its
verdict is final. -/
theorem deny_patterns_always_block (m : Nat) (o : String → ExecOutcome) (c : String)
    (h : matchesDeny c = true) :
    isCommandSafe c = false ∧ (executeCommand m o false c).blocked = true := by
  have hsafe : isCommandSafe c = false := by unfold isCommandSafe; simp [h]
  refine ⟨hsafe, ?_⟩
  unfold executeCommand executeCommandInstr
  simp [hsafe]

theorem deny_patterns_always_block_witness :
    matchesDeny "git status && sudo reboot" = true
    ∧ jsStartsWith "git status && sudo reboot" "git status" = true
    ∧ isCommandSafe "git status && sudo reboot" = false
    ∧ (executeCommand 10 (fun _ => ExecOutcome.ok "" "") false
         "git status && sudo reboot").blocked = true := by
  have h := deny_patterns_always_block 10 (fun _ => ExecOutcome.ok "" "")
    "git status && sudo reboot" (by decide)
  exact ⟨by decide, by decide, h.1, h.2⟩

/-- C2: with `continueOnError = false`, `executeCommands` returns exactly
the results of the prefix of commands up to and including the first whose
result has nonzero exit code (in input order), attempts no command after
it, and returns one result per command when no result fails. -/
theorem executeCommands_stop_on_first_failure (m : Nat) (o : String → ExecOutcome)
    (sk : Bool) (cmds : List String) (_hne : cmds ≠ []) :
    executeCommands m o false sk cmds =
      (cmds.take (cmds.findIdx (fun c => (executeCommand m o sk c).exitCode != 0) + 1)).map
        (executeCommand m o sk)
    ∧ (executeCommandsInstr m o false sk cmds).2 =
      cmds.take (cmds.findIdx (fun c => (executeCommand m o sk c).exitCode != 0) + 1)
    ∧ (cmds.findIdx (fun c => (executeCommand m o sk c).exitCode != 0) < cmds.length →
       (executeCommands m o false sk cmds).length =
         cmds.findIdx (fun c => (executeCommand m o sk c).exitCode != 0) + 1)
    ∧ (cmds.length ≤ cmds.findIdx (fun c => (executeCommand m o sk c).exitCode != 0) →
       (executeCommands m o false sk cmds).length = cmds.length) := by
  have h := executeCommandsInstr_stop_eq m o sk cmds
  unfold executeCommands
  refine ⟨by rw [h], by rw [h], ?_, ?_⟩
  · intro hlt
    rw [h]
    simp [List.length_take]
    omega
  · intro hge
    rw [h]
    rw [List.take_of_length_le (by omega)]
    simp

theorem executeCommands_stop_on_first_failure_witness :
    (["ls", "pwd", "echo hi"] : List String) ≠ [] ∧
    (executeCommands 10
      (fun c => if c = "ls" then ExecOutcome.ok "ok" "" else ExecOutcome.err none none (some 2) "bad")
      false false ["ls", "pwd", "echo hi"]).length = 2 := by
  refine ⟨by decide, ?_⟩
  have h := executeCommands_stop_on_first_failure 10
    (fun c => if c = "ls" then ExecOutcome.ok "ok" "" else ExecOutcome.err none none (some 2) "bad")
    false ["ls", "pwd", "echo hi"] (by decide)
  exact (h.2.2.1 (by decide)).trans (by decide)

/-- C6: with `continueOnError = true`, `executeCommands` returns one
result per input command, in input order, whatever the exit codes. -/
theorem executeCommands_continue_preserves_length (m : Nat) (o : String → ExecOutcome)
    (sk : Bool) (cmds : List String) :
    executeCommands m o true sk cmds = cmds.map (executeCommand m o sk)
    ∧ (executeCommands m o true sk cmds).length = cmds.length := by
  have h := executeCommandsInstr_continue_eq m o sk cmds
  unfold executeCommands
  rw [h]
  exact ⟨rfl, by simp⟩

lemma executeCommandInstr_blocked_eq (m : Nat) (o : String → ExecOutcome)
    (sk : Bool) (c : String)
    (h : (executeCommandInstr m o sk c).1.blocked = true) :
    executeCommandInstr m o sk c =
      ({ command := c, stdout := "", stderr := blockedMessage, exitCode := 1,
         duration := 0, blocked := true }, false) := by
  unfold executeCommandInstr at h ⊢
  by_cases hc : (!sk && !isCommandSafe c) = true
  · simp [hc]
  · simp only [hc, if_false, Bool.false_eq_true, ite_false] at h ⊢
    cases ho : o c with
    | ok out err => rw [ho] at h; simp at h
    | err a b d e => rw [ho] at h; simp at h

/-- C4: a blocked result carries a nonzero exit code and empty stdout,
and the `execAsync` spawn is never reached for it. -/
theorem blocked_implies_no_spawn (m : Nat) (o : String → ExecOutcome)
    (sk : Bool) (c : String)
    (h : (executeCommandInstr m o sk c).1.blocked = true) :
    (executeCommandInstr m o sk c).1.exitCode ≠ 0
    ∧ (executeCommandInstr m o sk c).1.stdout = ""
    ∧ (executeCommandInstr m o sk c).2 = false := by
  rw [executeCommandInstr_blocked_eq m o sk c h]
  exact ⟨by simp, rfl, rfl⟩

theorem blocked_implies_no_spawn_witness :
    (executeCommandInstr 10 (fun _ => ExecOutcome.ok "x" "") false "sudo ls").1.exitCode ≠ 0
    ∧ (executeCommandInstr 10 (fun _ => ExecOutcome.ok "x" "") false "sudo ls").1.stdout = ""
    ∧ (executeCommandInstr 10 (fun _ => ExecOutcome.ok "x" "") false "sudo ls").2 = false :=
  blocked_implies_no_spawn 10 (fun _ => ExecOutcome.ok "x" "") false "sudo ls" (by decide)

/-- C5 counterexample: `"foobar"` matches no deny pattern and no
allow-prefix and is blocked, but the recorded reason is the generic
blocked message, not "not in allow-list" — that reason string occurs
nowhere in the code. -/
theorem allow_list_reason_cex :
    matchesDeny "foobar" = false
    ∧ safeCommands.contains (baseCommand "foobar") = false
    ∧ safeCommands.any (fun safe => jsStartsWith "foobar" safe) = false
    ∧ (executeCommand 10 (fun _ => ExecOutcome.ok "" "") false "foobar").blocked = true
    ∧ ¬((executeCommand 10 (fun _ => ExecOutcome.ok "" "") false "foobar").stderr
        = "not in allow-list") := by decide

/-- C5 (amended): a command matching no deny pattern, not bypassed, whose
leading token is not a safe command and which starts with no safe-command
prefix, yields a Blocked result whose reason is the single generic
message `Command blocked for safety reasons` (exit code 1). -/
theorem unlisted_command_blocked (m : Nat) (o : String → ExecOutcome) (c : String)
    (hDeny : matchesDeny c = false)
    (hBase : safeCommands.contains (baseCommand c) = false)
    (hPre : safeCommands.any (fun safe => jsStartsWith c safe) = false) :
    (executeCommand m o false c).blocked = true
    ∧ (executeCommand m o false c).stderr = blockedMessage
    ∧ (executeCommand m o false c).exitCode = 1 := by
  have hsafe : isCommandSafe c = false := by
    unfold isCommandSafe
    rw [hDeny, hBase, hPre]
    rfl
  unfold executeCommand executeCommandInstr
  simp [hsafe]

theorem unlisted_command_blocked_witness :
    (executeCommand 10 (fun _ => ExecOutcome.ok "" "") false "foobar").blocked = true
    ∧ (executeCommand 10 (fun _ => ExecOutcome.ok "" "") false "foobar").stderr = blockedMessage
    ∧ (executeCommand 10 (fun _ => ExecOutcome.ok "" "") false "foobar").exitCode = 1 :=
  unlisted_command_blocked 10 (fun _ => ExecOutcome.ok "" "") "foobar"
    (by decide) (by decide) (by decide)

/-- C10: a command whose leading token is not in the safe set and which
matches no deny pattern can still be accepted, because the allow check
also tests `command.startsWith(safe)` without a token boundary —
`"catastrophe"` is accepted because it starts with `"cat"`. -/
theorem allow_prefix_no_token_boundary :
    ∃ cmd : String,
      safeCommands.contains (baseCommand cmd) = false
      ∧ matchesDeny cmd = false
      ∧ safeCommands.any (fun safe => jsStartsWith cmd safe) = true
      ∧ isCommandSafe cmd = true :=
  ⟨"catastrophe", by decide, by decide, by decide, by decide⟩

/-- C3 counterexample: on the exception path (`error = true`) the
`truncated` flag is left unset even when a raw captured stream exceeded
the byte budget — here budget 3, raw stdout `"abcdefgh"` (length 8). -/
theorem truncated_flag_error_path_cex :
    (executeCommand 3 (fun _ => ExecOutcome.err (some "abcdefgh") (some "e") (some 2) "m")
       false "ls").error = true
    ∧ ¬((executeCommand 3 (fun _ => ExecOutcome.err (some "abcdefgh") (some "e") (some 2) "m")
          false "ls").truncated = true
        ↔ (3 < ("abcdefgh" : String).length ∨ 3 < ("e" : String).length)) := by decide

/-- C3 (amended): every stream `truncateOutput` produces has length at
most the budget plus the marker; `executeCommand` result streams obey
that bound (the fixed blocked-reason message aside); on the success path
`truncated` is set iff a raw captured stream exceeded the budget; on the
error/exception path `truncated` is never set. -/
theorem executeCommand_output_bounds (m : Nat) (o : String → ExecOutcome)
    (sk : Bool) (c : String) :
    (∀ s : String, (truncateOutput m s).length ≤ m + truncMarker.length)
    ∧ (executeCommand m o sk c).stdout.length ≤ m + truncMarker.length
    ∧ ((executeCommand m o sk c).blocked = false →
       (executeCommand m o sk c).stderr.length ≤ m + truncMarker.length)
    ∧ (∀ out err, o c = ExecOutcome.ok out err →
       (executeCommand m o sk c).blocked = false →
       ((executeCommand m o sk c).truncated = true ↔ (m < out.length ∨ m < err.length)))
    ∧ ((executeCommand m o sk c).error = true → (executeCommand m o sk c).truncated = false) := by
  refine ⟨truncateOutput_length_le m, ?_⟩
  unfold executeCommand executeCommandInstr
  by_cases hc : (!sk && !isCommandSafe c) = true
  · simp [hc]
  · simp only [hc, Bool.false_eq_true, ite_false]
    cases ho : o c with
    | ok out err =>
      refine ⟨truncateOutput_length_le m out, fun _ => truncateOutput_length_le m err, ?_, ?_⟩
      · intro out' err' h _
        injection h with h1 h2
        subst h1
        subst h2
        simp
      · intro h
        simp at h
    | err a b d e =>
      refine ⟨truncateOutput_length_le m _, fun _ => truncateOutput_length_le m _, ?_, fun _ => rfl⟩
      intro out' err' h
      exact ExecOutcome.noConfusion h

theorem executeCommand_output_bounds_witness :
    (truncateOutput 3 "abcdefgh").length ≤ 3 + truncMarker.length
    ∧ (executeCommand 3 (fun _ => ExecOutcome.ok "abcdefgh" "") false "ls").truncated = true := by
  have h := executeCommand_output_bounds 3 (fun _ => ExecOutcome.ok "abcdefgh" "") false "ls"
  exact ⟨h.1 "abcdefgh", (h.2.2.2.1 "abcdefgh" "" rfl (by decide)).mpr (Or.inl (by decide))⟩

lemma executeCommand_command_eq (m : Nat) (o : String → ExecOutcome)
    (sk : Bool) (c : String) : (executeCommand m o sk c).command = c := by
  unfold executeCommand executeCommandInstr
  by_cases hc : (!sk && !isCommandSafe c) = true
  · simp [hc]
  · simp only [hc, Bool.false_eq_true, ite_false]
    cases o c <;> rfl

/-- C7: `claudeSearch` issues exactly the three fixed probes — grep,
find, git log, in that order, with continue-on-error — and each
synthesized match count is the number of non-blank-after-trim lines in
that probe's captured stdout. -/
theorem claudeSearch_three_fixed_probes (m : Nat) (o : String → ExecOutcome)
    (query : String) (ctx : SearchContext) :
    (claudeSearch m o query ctx).results.length = 3
    ∧ (claudeSearch m o query ctx).results.map SearchSubResult.command = searchCommands query ctx
    ∧ searchCommands query ctx =
        ["grep -r \"" ++ query ++ "\" " ++ jsOrStr ctx.searchPath ".",
         "find " ++ jsOrStr ctx.searchPath "." ++ " -name \"*" ++ query ++ "*\"",
         "git log --grep=\"" ++ query ++ "\" --oneline -10"]
    ∧ (claudeSearch m o query ctx).results.map SearchSubResult.matches =
        (searchCommands query ctx).map
          (fun c => countMatches ((executeCommand m o false c).stdout)) := by
  unfold claudeSearch executeCommands
  rw [executeCommandsInstr_continue_eq m o false (searchCommands query ctx)]
  refine ⟨by simp [searchCommands], ?_, rfl, ?_⟩
  · rw [List.map_map, List.map_map]
    conv_rhs => rw [← List.map_id (searchCommands query ctx)]
    exact List.map_congr_left (fun a _ => executeCommand_command_eq m o false a)
  · rw [List.map_map, List.map_map]
    rfl

/-- C8: `claudeExplain` reads the target with one `cat` probe; it
forwards the content to the text-generation capability and returns an
explanation exactly when the read exited 0, and otherwise returns the
descriptive failure carrying the read's stderr, independently of the
text-generation function (which is never invoked on that path). -/
theorem claudeExplain_read_gated (m : Nat) (o : String → ExecOutcome)
    (gen gen2 : String → String) (target : String) :
    ((executeCommand m o false ("cat " ++ target)).exitCode = 0 →
      claudeExplain m o gen target =
        ExplainResult.explanation ("claude-explain " ++ target)
          (gen (explainPrompt (executeCommand m o false ("cat " ++ target)).stdout)))
    ∧ ((executeCommand m o false ("cat " ++ target)).exitCode ≠ 0 →
      claudeExplain m o gen target =
        ExplainResult.failure ("claude-explain " ++ target) "Could not read file"
          (executeCommand m o false ("cat " ++ target)).stderr)
    ∧ ((executeCommand m o false ("cat " ++ target)).exitCode ≠ 0 →
      claudeExplain m o gen target = claudeExplain m o gen2 target) := by
  unfold claudeExplain
  exact ⟨fun h => by simp [h], fun h => by simp [h], fun h => by simp [h]⟩

theorem claudeExplain_read_gated_witness :
    claudeExplain 100 (fun _ => ExecOutcome.ok "code" "") (fun p => "EXPL:" ++ p) "f.js" =
      ExplainResult.explanation ("claude-explain " ++ "f.js")
        ((fun p => "EXPL:" ++ p)
          (explainPrompt
            (executeCommand 100 (fun _ => ExecOutcome.ok "code" "") false ("cat " ++ "f.js")).stdout))
    ∧ claudeExplain 100 (fun _ => ExecOutcome.err (some "") (some "no such file") (some 1) "m")
        id "f.js" =
      ExplainResult.failure ("claude-explain " ++ "f.js") "Could not read file"
        (executeCommand 100 (fun _ => ExecOutcome.err (some "") (some "no such file") (some 1) "m")
          false ("cat " ++ "f.js")).stderr :=
  ⟨(claudeExplain_read_gated 100 (fun _ => ExecOutcome.ok "code" "")
      (fun p => "EXPL:" ++ p) id "f.js").1 (by decide),
   (claudeExplain_read_gated 100
      (fun _ => ExecOutcome.err (some "") (some "no such file") (some 1) "m")
      id id "f.js").2.1 (by decide)⟩

lemma strData_empty : ("" : String).data = [] := rfl

lemma fmtEntry_eq_spec (i : Nat) (r : ExecutionResult) : fmtEntry i r = renderEntrySpec i r := by
  unfold fmtEntry renderEntrySpec
  apply String.ext
  by_cases hb : r.blocked = true <;>
  by_cases ht : r.truncated = true <;>
  by_cases hs : r.stdout = "" <;>
  by_cases he : r.stderr = "" <;>
  by_cases hx : r.exitCode = 0 <;>
  simp [hb, ht, hs, he, hx, bne_iff_ne, Bool.and_eq_true,
    String.data_append, strData_empty, List.append_assoc]

lemma mapIdxFrom_congr {f g : Nat → α → β} (h : ∀ i a, f i a = g i a) :
    ∀ (n : Nat) (l : List α), mapIdxFrom f n l = mapIdxFrom g n l
  | _, [] => rfl
  | n, a :: as_ => by
    simp only [mapIdxFrom, h, mapIdxFrom_congr h (n + 1) as_]

/-- C9 counterexample: no single formatter renders everything the claim
lists — `formatTerminalResults` on a blocked result with duration 42
renders the duration nowhere (no "42" in the text), while `formatResult`
on the same result renders no blocked-for-safety notice. -/
theorem formatter_claim_cex :
    substrB "42".data (formatTerminalResults
      [{ command := "ls", stdout := "", stderr := "boom", exitCode := 1,
         duration := 42, blocked := true }]).data = false
    ∧ substrB "Blocked for safety".data (formatResult
      { command := "ls", stdout := "", stderr := "boom", exitCode := 1,
        duration := 42, blocked := true }).data = false := by decide

/-- C9 (amended): `formatTerminalResults` renders per result, in order, a
numbered header with the command text (but no status indicator and no
duration), then — blocked → the blocked-for-safety notice plus the reason
instead of exit code and output; otherwise the exit code, an output block
exactly when stdout is non-empty, an error block exactly when stderr is
non-empty and the exit code is nonzero — then a truncation notice exactly
when the truncated flag is set; entries are joined by newlines. -/
theorem formatTerminalResults_structure (results : List ExecutionResult) :
    formatTerminalResults results = joinNl (mapIdxFrom renderEntrySpec 0 results) := by
  unfold formatTerminalResults
  exact congrArg joinNl (mapIdxFrom_congr fmtEntry_eq_spec 0 results)
